import Mathlib

/-!
Verification of the response-image extraction logic of sprite-forge
(`src/tools/prompt_tester.py`, function `generate_image`, together with the
request-payload construction of `prompt_tester.py` and
`src/tools/verify_dimensions.py`).

The Python code is shallowly embedded: parsed JSON values become the `Json`
inductive, each Python operation that can raise (`d.get`, `x[0]`, `k in v`,
`v[k]`, `len`, `str.startswith`, `str.split`) becomes a function into
`Except PyErr _`, and the body of `generate_image` after the HTTP stage is
translated statement by statement into `extract`.
-/

/-- A parsed JSON value, as produced by `response.json()`. Objects model
Python dicts (keys unique, first binding wins on lookup). -/
inductive Json where
  | null
  | bool (b : Bool)
  | num (n : Int)
  | str (s : String)
  | arr (elems : List Json)
  | obj (fields : List (String × Json))

/-- The Python exceptions the embedded operations can raise. -/
inductive PyErr where
  | attributeError
  | typeError
  | indexError
  | keyError
  | valueError
  | zeroDivisionError
deriving DecidableEq, Repr

/-- The dictionaries `generate_image` returns: `{"success": True,
"image_base64": ..., "mime_type": ...}` or `{"success": False, "error": ...}`.
The success payload fields are arbitrary JSON values in the source (they come
straight from the response tree); the error field is always an f-string. -/
inductive GenResult where
  | success (image_base64 : Json) (mime_type : Json)
  | failure (error : String)

/-- First-match association lookup, modelling Python dict access. -/
def lookupField : List (String × Json) → String → Option Json
  | [], _ => none
  | (k, v) :: rest, key => if k == key then some v else lookupField rest key

/-- Python truthiness of a JSON value. -/
def truthy : Json → Bool
  | .null => false
  | .bool b => b
  | .num n => n != 0
  | .str s => !s.data.isEmpty
  | .arr xs => !xs.isEmpty
  | .obj fs => !fs.isEmpty

/-- `v.get(k, default)`: raises `AttributeError` unless `v` is a dict. -/
def pyGet (v : Json) (k : String) (default : Json) : Except PyErr Json :=
  match v with
  | .obj fs => .ok ((lookupField fs k).getD default)
  | _ => .error .attributeError

/-- `v[0]`: first element of a list or string, `IndexError` when empty,
`KeyError` on a dict (no integer keys occur in this model), `TypeError`
otherwise. -/
def pyIndex0 (v : Json) : Except PyErr Json :=
  match v with
  | .arr (x :: _) => .ok x
  | .arr [] => .error .indexError
  | .str s =>
    match s.data with
    | c :: _ => .ok (.str (String.mk [c]))
    | [] => .error .indexError
  | .obj _ => .error .keyError
  | _ => .error .typeError

/-- Does the character-list pattern `p` start the list `l`? -/
def startsWithChars : List Char → List Char → Bool
  | [], _ => true
  | _ :: _, [] => false
  | p :: ps, x :: xs => p == x && startsWithChars ps xs

/-- Substring test on character lists (Python `needle in haystack` for
strings). -/
def containsChars (needle : List Char) : List Char → Bool
  | [] => startsWithChars needle []
  | x :: xs => startsWithChars needle (x :: xs) || containsChars needle xs

/-- Python string equality between a JSON value and a string literal
(`x == "s"` is `False` whenever `x` is not a string). -/
def jsonEqStr (j : Json) (s : String) : Bool :=
  match j with
  | .str t => t == s
  | _ => false

/-- `k in v`: dict-key containment, list membership, or substring test;
`TypeError` on other values. -/
def pyContains (k : String) (v : Json) : Except PyErr Bool :=
  match v with
  | .obj fs => .ok (lookupField fs k).isSome
  | .arr xs => .ok (xs.any (fun x => jsonEqStr x k))
  | .str s => .ok (containsChars k.data s.data)
  | _ => .error .typeError

/-- `v[k]` for a string key: dict lookup (`KeyError` when absent),
`TypeError` on any other value. -/
def pySubscript (v : Json) (k : String) : Except PyErr Json :=
  match v with
  | .obj fs =>
    match lookupField fs k with
    | some x => .ok x
    | none => .error .keyError
  | _ => .error .typeError

/-- `len(v)`: `TypeError` on values without a length. -/
def pyLen (v : Json) : Except PyErr Nat :=
  match v with
  | .str s => .ok s.data.length
  | .arr xs => .ok xs.length
  | .obj fs => .ok fs.length
  | _ => .error .typeError

/-- `v.startswith(p)`: only strings have the method. -/
def pyStartswith (v : Json) (p : String) : Except PyErr Bool :=
  match v with
  | .str s => .ok (startsWithChars p.data s.data)
  | _ => .error .attributeError

/-- `s.split(c, 1)` on character lists: split at the first occurrence of `c`
only, yielding one or two segments. -/
def split1Char (c : Char) : List Char → List (List Char)
  | [] => [[]]
  | x :: xs =>
    if x = c then [[], xs]
    else
      match split1Char c xs with
      | [] => [[x]]
      | y :: ys => (x :: y) :: ys

/-- `s.split(c)` on character lists: split at every occurrence of `c`. -/
def splitAllChar (c : Char) : List Char → List (List Char)
  | [] => [[]]
  | x :: xs =>
    let r := splitAllChar c xs
    if x = c then [] :: r
    else
      match r with
      | [] => [[x]]
      | y :: ys => (x :: y) :: ys

/-- `url.split(",", 1)` as in the source: `AttributeError` unless the value
is a string. -/
def pySplit1 (v : Json) (c : Char) : Except PyErr (List String) :=
  match v with
  | .str s => .ok ((split1Char c s.data).map String.mk)
  | _ => .error .attributeError

/-- Unlimited split of an (already known) string by a single character. -/
def pySplitStr (c : Char) (s : String) : List String :=
  (splitAllChar c s.data).map String.mk

/-- `xs[i]` on a Python list: `IndexError` when out of range. -/
def pyNth (xs : List String) (i : Nat) : Except PyErr String :=
  match xs.get? i with
  | some x => .ok x
  | none => .error .indexError

/-- `s[:200]`, Python slicing of a string to its first 200 characters. -/
def take200 (s : String) : String := String.mk (s.data.take 200)

/-! ### The extractor, translated from `prompt_tester.py` lines 191-251 -/

/-- Lines 198-208: the embedded data-URI candidate on the first element of
`message.images`. Returns `some` result, `none` to fall through, or a raised
exception. -/
def tryImageUrl (img : Json) : Except PyErr (Option GenResult) := do
  let hasImageUrl ← pyContains "image_url" img
  let cond ←
    if hasImageUrl then do
      let iu ← pySubscript img "image_url"
      pyContains "url" iu
    else
      pure false
  if cond then
    let iu ← pySubscript img "image_url"
    let url ← pySubscript iu "url"
    let isData ← pyStartswith url "data:"
    if isData then
      let parts ← pySplit1 url ','
      if parts.length == 2 then
        let p0 ← pyNth parts 0
        let seg ← pyNth (pySplitStr ':' p0) 1
        let mime ← pyNth (pySplitStr ';' seg) 0
        let p1 ← pyNth parts 1
        pure (some (.success (Json.str p1) (Json.str mime)))
      else
        pure none
    else
      pure none
  else
    pure none

/-- Lines 210-215 and 229-234: the `inline_data` candidate (shared shape
between the images branch and the content-list branch). -/
def tryInlineData (v : Json) : Except PyErr (Option GenResult) := do
  let has ← pyContains "inline_data" v
  if has then
    let inl ← pySubscript v "inline_data"
    let d ← pyGet inl "data" (Json.str "")
    let m ← pyGet inl "mime_type" (Json.str "image/png")
    pure (some (.success d m))
  else
    pure none

/-- Lines 217-222 and 235-240: the bare `data` candidate. -/
def tryBareData (v : Json) : Except PyErr (Option GenResult) := do
  let has ← pyContains "data" v
  if has then
    let d ← pySubscript v "data"
    let m ← pyGet v "mime_type" (Json.str "image/png")
    pure (some (.success d m))
  else
    pure none

/-- Lines 197-222: all three candidates on the first images-list element, in
source order. -/
def tryImagesFirst (img : Json) : Except PyErr (Option GenResult) := do
  match ← tryImageUrl img with
  | some r => pure (some r)
  | none =>
    match ← tryInlineData img with
    | some r => pure (some r)
    | none => tryBareData img

/-- `item.get("type") in ["output_image", "image", "image_url"]`. -/
def isTypeMatch (t : Json) : Bool :=
  jsonEqStr t "output_image" || jsonEqStr t "image" || jsonEqStr t "image_url"

/-- Lines 226-240: the `for item in content` loop. The loop keeps scanning
past type-matching items that carry neither `inline_data` nor `data`. -/
def scanContent : List Json → Except PyErr (Option GenResult)
  | [] => pure none
  | item :: rest => do
    let t ← pyGet item "type" Json.null
    if isTypeMatch t then
      match ← tryInlineData item with
      | some r => pure (some r)
      | none =>
        match ← tryBareData item with
        | some r => pure (some r)
        | none => scanContent rest
    else
      scanContent rest

/-- Lines 224-251: the stages run when no images-list candidate fired — the
content-array scan, the plain-text fallback and the final
`"No image in response"`. -/
def extractContentStage (message : Json) : Except PyErr GenResult := do
  let content ← pyGet message "content" (Json.str "")
  let fromContent ←
    match content with
    | Json.arr items => scanContent items
    | _ => pure none
  match fromContent with
  | some r => pure r
  | none =>
    match content with
    | Json.str s =>
      if s.data.isEmpty then
        pure (.failure "No image in response")
      else
        pure (.failure ("Model returned text instead of image: " ++ take200 s))
    | _ => pure (.failure "No image in response")

/-- Lines 191-251 of `prompt_tester.py`: the response-shape resolution that
turns a parsed JSON response into the result dictionary. -/
def extract (data : Json) : Except PyErr GenResult := do
  let choicesVal ← pyGet data "choices" (Json.arr [Json.obj []])
  let c0 ← pyIndex0 choicesVal
  let message ← pyGet c0 "message" (Json.obj [])
  let images ← pyGet message "images" (Json.arr [])
  let fromImages ←
    if truthy images then do
      let n ← pyLen images
      if n > 0 then do
        let img ← pyIndex0 images
        tryImagesFirst img
      else
        pure none
    else
      pure none
  match fromImages with
  | some r => pure r
  | none => extractContentStage message

/-! ### The transport stage, lines 165-181 of `prompt_tester.py`

`requests.Response.ok` is documented as `status_code < 400` (it returns
`False` exactly when `raise_for_status` would raise, i.e. for 4xx/5xx).
The body is modelled as the raw text plus the outcome of JSON-parsing it
(`none` when `response.json()` would raise). -/

/-- `response.ok` of the `requests` library: status below 400. -/
def responseOk (status : Nat) : Bool := status < 400

/-- Lines 175-181 and 181-251: the non-2xx short-circuit followed by
`response.json()` and the extractor. `parsed` is the JSON parse of `body`
(`none` when the body is not valid JSON, in which case `response.json()`
raises). -/
def handleResponse (status : Nat) (body : String) (parsed : Option Json) :
    Except PyErr GenResult :=
  if !responseOk status then
    .ok (.failure ("HTTP " ++ toString status ++ ": " ++ take200 body))
  else
    match parsed with
    | some j => extract j
    | none => .error .valueError

/-! ### base64, modelling CPython `base64.b64encode` / `b64decode`

`save_image` (lines 254-258) writes `base64.b64decode(base64_data)` to disk;
`b64encode` is used on the input photo (line 82) and when building data URIs.
Bytes are naturals below 256. The decoder is modelled on canonically padded
input, which is the only shape `b64encodeChars` produces. -/

def base64Table : List Char :=
  "ABCDEFGHIJKLMNOPQRSTUVWXYZabcdefghijklmnopqrstuvwxyz0123456789+/".data

/-- The character for a six-bit value. -/
def sixbitChar (k : Nat) : Char := base64Table.getD k 'A'

/-- The six-bit value of a base64 character. -/
def charSixbit (c : Char) : Nat := (base64Table.findIdx? (· == c)).getD 0

/-- `base64.b64encode`, on byte lists, producing the padded alphabet
characters. -/
def b64encodeChars : List Nat → List Char
  | b0 :: b1 :: b2 :: rest =>
    sixbitChar (b0 / 4) :: sixbitChar ((b0 % 4) * 16 + b1 / 16) ::
    sixbitChar ((b1 % 16) * 4 + b2 / 64) :: sixbitChar (b2 % 64) ::
    b64encodeChars rest
  | [b0, b1] =>
    [sixbitChar (b0 / 4), sixbitChar ((b0 % 4) * 16 + b1 / 16),
     sixbitChar ((b1 % 16) * 4), '=']
  | [b0] => [sixbitChar (b0 / 4), sixbitChar ((b0 % 4) * 16), '=', '=']
  | [] => []

/-- `base64.b64decode`, on canonically padded alphabet input. -/
def b64decodeChars : List Char → List Nat
  | c0 :: c1 :: c2 :: c3 :: rest =>
    if c2 = '=' then
      [charSixbit c0 * 4 + charSixbit c1 / 16]
    else if c3 = '=' then
      [charSixbit c0 * 4 + charSixbit c1 / 16,
       (charSixbit c1 % 16) * 16 + charSixbit c2 / 4]
    else
      (charSixbit c0 * 4 + charSixbit c1 / 16) ::
      ((charSixbit c1 % 16) * 16 + charSixbit c2 / 4) ::
      ((charSixbit c2 % 4) * 64 + charSixbit c3) ::
      b64decodeChars rest
  | _ => []

def b64encode (bs : List Nat) : String := String.mk (b64encodeChars bs)

def b64decode (s : String) : List Nat := b64decodeChars s.data

/-- `save_image` (lines 254-258): the bytes written to the output file are
the base64-decoding of the payload string. -/
def save_image (base64_data : String) : List Nat := b64decode base64_data

/-! ### Request payload construction

`prompt_tester.py` lines 114-150 (optional dimensions, guarded by Python
truthiness `if width and height:`) and `verify_dimensions.py` lines 57-75
(divisor and aspect ratio computed unconditionally, then the payload dict).
Python `//` is floor division and raises `ZeroDivisionError` on a zero
divisor; `math.gcd` takes absolute values, and `gcd(0, 0) = 0`. -/

/-- Python `//`: floor division, `ZeroDivisionError` on a zero divisor. -/
def pyFloorDiv (a b : Int) : Except PyErr Int :=
  if b = 0 then .error .zeroDivisionError else .ok (Int.fdiv a b)

/-- `f"{width // divisor}:{height // divisor}"` with `divisor = gcd(width,
height)`: raises `ZeroDivisionError` when both dimensions are zero. -/
def aspectRatioString (w h : Int) : Except PyErr String := do
  let divisor : Int := Int.gcd w h
  let a ← pyFloorDiv w divisor
  let b ← pyFloorDiv h divisor
  pure (toString a ++ ":" ++ toString b)

/-- The fields shared by both payload builders (lines 114-131). -/
def baseFields (model mimeType imageB64 fullPrompt : String) :
    List (String × Json) :=
  [("model", Json.str model),
   ("messages", Json.arr [Json.obj [
      ("role", Json.str "user"),
      ("content", Json.arr [
        Json.obj [("type", Json.str "text"), ("text", Json.str fullPrompt)],
        Json.obj [("type", Json.str "image_url"),
          ("image_url", Json.obj [("url",
            Json.str ("data:" ++ mimeType ++ ";base64," ++ imageB64))])]])]]),
   ("max_tokens", Json.num 4096)]

/-- Lines 133-150: `image_size` and `image_config` are added exactly when
`if width and height:` is true, i.e. both arguments are non-`None` and
nonzero; the divisor and aspect-ratio computation only runs under that
guard, so it cannot hit a zero divisor. -/
def dimensionFields (width height : Option Int) :
    Except PyErr (List (String × Json)) :=
  match width, height with
  | some w, some h =>
    if w != 0 && h != 0 then do
      let ar ← aspectRatioString w h
      pure [("image_size", Json.obj [("width", Json.num w), ("height", Json.num h)]),
            ("image_config", Json.obj [("aspect_ratio", Json.str ar)])]
    else pure []
  | _, _ => pure []

/-- The payload `prompt_tester.generate_image` sends (lines 114-150). -/
def buildPayloadPT (model mimeType imageB64 fullPrompt : String)
    (width height : Option Int) : Except PyErr Json := do
  let dims ← dimensionFields width height
  pure (Json.obj (baseFields model mimeType imageB64 fullPrompt ++ dims))

/-- The payload `verify_dimensions.generate_image` sends (lines 57-75): the
divisor and aspect ratio are computed unconditionally before the payload
dict, so a zero width and height raise `ZeroDivisionError` before any
payload exists; otherwise the dimension fields are always present. -/
def buildPayloadVD (model mimeType imageB64 fullPrompt : String)
    (width height : Int) : Except PyErr Json := do
  let ar ← aspectRatioString width height
  pure (Json.obj (baseFields model mimeType imageB64 fullPrompt ++
    [("image_size", Json.obj [("width", Json.num width),
                              ("height", Json.num height)]),
     ("image_config", Json.obj [("aspect_ratio", Json.str ar)])]))

/-- Key presence in a JSON object. -/
def hasField (j : Json) (k : String) : Bool :=
  match j with
  | .obj fs => (lookupField fs k).isSome
  | _ => false

/-- Key presence in the payload of a computation that may raise: `false`
when the computation raised. -/
def hasFieldOk (r : Except PyErr Json) (k : String) : Bool :=
  match r with
  | .ok j => hasField j k
  | .error _ => false

/-! ### Well-formedness: the shapes on which the extractor cannot raise -/

/-- A content-list item the loop can process without raising: an object
whose `inline_data` field, when present, is itself an object. -/
def shapedItem : Json → Bool
  | .obj fs =>
    match lookupField fs "inline_data" with
    | some (.obj _) => true
    | some _ => false
    | none => true
  | _ => false

/-- A first images-list element the candidate chain can process without
raising: an object whose `image_url` field, when present, is an object with
a string `url` (when present), and whose `inline_data` field, when present,
is an object. -/
def shapedImg : Json → Bool
  | .obj fs =>
    (match lookupField fs "image_url" with
     | some (.obj iufs) =>
       (match lookupField iufs "url" with
        | some (.str _) => true
        | some _ => false
        | none => true)
     | some _ => false
     | none => true) &&
    (match lookupField fs "inline_data" with
     | some (.obj _) => true
     | some _ => false
     | none => true)
  | _ => false

/-- A message value the extractor can process without raising. -/
def shapedMessage : Json → Bool
  | .obj fs =>
    (match lookupField fs "images" with
     | some (.arr []) => true
     | some (.arr (img :: _)) => shapedImg img
     | some v => !truthy v
     | none => true) &&
    (match lookupField fs "content" with
     | some (.arr items) => items.all shapedItem
     | some _ => true
     | none => true)
  | _ => false

/-- A parsed response the extractor can process without raising: a top-level
object whose `choices` field, when present, is a non-empty array headed by
an object with a well-shaped `message` (when present). -/
def shapedResponse : Json → Bool
  | .obj fs =>
    match lookupField fs "choices" with
    | none => true
    | some (.arr (c0 :: _)) =>
      (match c0 with
       | .obj cfs =>
         match lookupField cfs "message" with
         | some m => shapedMessage m
         | none => true
       | _ => false)
    | some _ => false
  | _ => false

/-- Does an `Except` computation finish without a raised exception? -/
def exceptOk : Except PyErr GenResult → Bool
  | .ok _ => true
  | .error _ => false

/-- A content-list item the loop scans past without producing a result: an
object whose declared type does not match, or which carries neither an
`inline_data` nor a `data` field. -/
def skippable : Json → Bool
  | .obj fs =>
    !(isTypeMatch ((lookupField fs "type").getD Json.null) &&
      ((lookupField fs "inline_data").isSome ||
       (lookupField fs "data").isSome))
  | _ => false

/-- The result the content-list loop produces from a single item, when the
item yields one: the declared type matches and the item carries an
`inline_data` object or a bare `data` field (inline data taking
precedence). -/
def yieldsResult : Json → Option GenResult
  | .obj fs =>
    if isTypeMatch ((lookupField fs "type").getD Json.null) then
      match lookupField fs "inline_data" with
      | some (.obj ifs) =>
        some (.success ((lookupField ifs "data").getD (Json.str ""))
                       ((lookupField ifs "mime_type").getD (Json.str "image/png")))
      | some _ => none
      | none =>
        match lookupField fs "data" with
        | some d =>
          some (.success d ((lookupField fs "mime_type").getD (Json.str "image/png")))
        | none => none
    else none
  | _ => none

/-! ### Concrete responses used in the theorems below -/

/-- A response whose message carries a single images-list element with the
given `image_url.url` value. -/
def urlResponse (u : String) : Json :=
  Json.obj [("choices", Json.arr [Json.obj [("message", Json.obj [("images",
    Json.arr [Json.obj [("image_url", Json.obj [("url", Json.str u)])]])])]])]

/-- A response whose message carries a single images-list element holding an
`inline_data` object with the given fields. -/
def inlineDataResponse (ifs : List (String × Json)) : Json :=
  Json.obj [("choices", Json.arr [Json.obj [("message", Json.obj [("images",
    Json.arr [Json.obj [("inline_data", Json.obj ifs)]])])]])]

/-- A response whose message carries a single images-list element holding a
bare `data` field and nothing else. -/
def bareDataResponse (d : String) : Json :=
  Json.obj [("choices", Json.arr [Json.obj [("message", Json.obj [("images",
    Json.arr [Json.obj [("data", Json.str d)]])])]])]

/-- A response whose message has no images list and the given content
list. -/
def contentResponse (items : List Json) : Json :=
  Json.obj [("choices", Json.arr [Json.obj [("message", Json.obj [("content",
    Json.arr items)])]])]

/-- A response whose message has no images list and a single content-list
item of matching type holding an `inline_data` object with the given
fields. -/
def contentInlineResponse (ifs : List (String × Json)) : Json :=
  contentResponse [Json.obj [("type", Json.str "image"), ("inline_data", Json.obj ifs)]]

/-- A response whose message has no images list and a plain-text content
value. -/
def textResponse (t : String) : Json :=
  Json.obj [("choices", Json.arr [Json.obj [("message", Json.obj [("content",
    Json.str t)])]])]

/-- A content-list item whose type matches but which carries neither
`inline_data` nor `data`, followed by one that carries bare data: the input
separating the stop-at-first-match reading from the code's keep-scanning
loop. -/
def twoItemContentResponse : Json :=
  contentResponse
    [Json.obj [("type", Json.str "image")],
     Json.obj [("type", Json.str "image"), ("data", Json.str "QUJD")]]

/-- The standard image media types quantified over by the round-trip
property. -/
def standardImageMimes : List String :=
  ["image/png", "image/jpeg", "image/gif", "image/webp", "image/bmp",
   "image/tiff", "image/svg+xml", "image/avif"]

/-! ### Basic lemmas -/

@[simp]
theorem ok_bind {α β : Type} (a : α) (f : α → Except PyErr β) :
    (Except.ok a >>= f) = f a := rfl

@[simp]
theorem error_bind {α β : Type} (e : PyErr) (f : α → Except PyErr β) :
    ((Except.error e : Except PyErr α) >>= f) = .error e := rfl

@[simp]
theorem pure_eq_ok {α : Type} (a : α) : (pure a : Except PyErr α) = .ok a := rfl

theorem split1Char_of_not_mem {c : Char} {l : List Char} (h : c ∉ l) :
    split1Char c l = [l] := by
  induction l with
  | nil => rfl
  | cons x xs ih =>
    simp only [List.mem_cons, not_or] at h
    simp [split1Char, Ne.symm h.1, ih h.2]

theorem split1Char_append {c : Char} {a : List Char} (b : List Char)
    (h : c ∉ a) : split1Char c (a ++ c :: b) = [a, b] := by
  induction a with
  | nil => simp [split1Char]
  | cons x xs ih =>
    simp only [List.mem_cons, not_or] at h
    simp [split1Char, Ne.symm h.1, ih h.2]

theorem split1Char_eq_pair {c : Char} :
    ∀ {l a b : List Char}, split1Char c l = [a, b] → l = a ++ c :: b ∧ c ∉ a := by
  intro l
  induction l with
  | nil => intro a b h; simp [split1Char] at h
  | cons x xs ih =>
    intro a b h
    by_cases hx : x = c
    · subst hx
      simp only [split1Char, if_pos rfl, List.cons.injEq] at h
      obtain ⟨rfl, rfl, _⟩ := h
      simp
    · rw [split1Char, if_neg hx] at h
      cases h' : split1Char c xs with
      | nil => rw [h'] at h; simp at h
      | cons y ys =>
        rw [h'] at h
        simp only [List.cons.injEq] at h
        obtain ⟨rfl, hys⟩ := h
        subst hys
        obtain ⟨rfl, hcy⟩ := ih h'
        refine ⟨rfl, ?_⟩
        simp only [List.mem_cons, not_or]
        exact ⟨fun hcx => hx hcx.symm, hcy⟩

theorem splitAllChar_ne_nil (c : Char) (l : List Char) :
    splitAllChar c l ≠ [] := by
  cases l with
  | nil => simp [splitAllChar]
  | cons x xs =>
    rw [splitAllChar]
    by_cases hx : x = c
    · simp [hx]
    · simp only [if_neg hx]
      cases splitAllChar c xs <;> simp

theorem splitAllChar_of_not_mem {c : Char} {l : List Char} (h : c ∉ l) :
    splitAllChar c l = [l] := by
  induction l with
  | nil => rfl
  | cons x xs ih =>
    simp only [List.mem_cons, not_or] at h
    rw [splitAllChar]
    simp only [ih h.2, if_neg (Ne.symm h.1)]

theorem splitAllChar_append {c : Char} {a : List Char} (b : List Char)
    (h : c ∉ a) : splitAllChar c (a ++ c :: b) = a :: splitAllChar c b := by
  induction a with
  | nil => simp [splitAllChar]
  | cons x xs ih =>
    simp only [List.mem_cons, not_or] at h
    rw [List.cons_append, splitAllChar]
    simp only [ih h.2, if_neg (Ne.symm h.1)]

/-- When a string starting with the scheme marker `data:` is split at its
first comma, the header segment still contains a colon (the comma cannot
occur inside the five fixed marker characters). -/
theorem colon_mem_header {l a b : List Char}
    (hs : startsWithChars "data:".data l = true)
    (hsplit : split1Char ',' l = [a, b]) : ':' ∈ a := by
  obtain ⟨hl, hnm⟩ := split1Char_eq_pair hsplit
  subst hl
  have hd : "data:".data = ['d', 'a', 't', 'a', ':'] := rfl
  rw [hd] at hs
  rcases a with _ | ⟨x0, _ | ⟨x1, _ | ⟨x2, _ | ⟨x3, _ | ⟨x4, rest⟩⟩⟩⟩⟩ <;>
    simp_all [startsWithChars]
  tauto

theorem base64Table_length : base64Table.length = 64 := rfl

theorem sixbitChar_not_special_lt :
    ∀ k, k < 64 → sixbitChar k ≠ ',' ∧ sixbitChar k ≠ '=' ∧
      sixbitChar k ≠ ':' ∧ sixbitChar k ≠ ';' := by decide

theorem sixbitChar_not_special (k : Nat) :
    sixbitChar k ≠ ',' ∧ sixbitChar k ≠ '=' ∧
      sixbitChar k ≠ ':' ∧ sixbitChar k ≠ ';' := by
  rcases Nat.lt_or_ge k 64 with h | h
  · exact sixbitChar_not_special_lt k h
  · have hlen : base64Table.length ≤ k := by rw [base64Table_length]; omega
    rw [sixbitChar, List.getD_eq_default _ _ hlen]
    decide

theorem charSixbit_sixbitChar : ∀ k, k < 64 → charSixbit (sixbitChar k) = k := by
  decide

/-- A recursor matching the three-byte quantum structure of base64. -/
theorem byThrees {P : List Nat → Prop} (h0 : P []) (h1 : ∀ a, P [a])
    (h2 : ∀ a b, P [a, b])
    (h3 : ∀ a b c l, P l → P (a :: b :: c :: l)) : ∀ l, P l
  | [] => h0
  | [a] => h1 a
  | [a, b] => h2 a b
  | a :: b :: c :: l => h3 a b c l (byThrees h0 h1 h2 h3 l)

theorem b64encodeChars_no_comma : ∀ bs, ',' ∉ b64encodeChars bs := by
  intro bs
  induction bs using byThrees with
  | h0 => simp [b64encodeChars]
  | h1 a =>
    simp only [b64encodeChars, List.mem_cons, not_or]
    refine ⟨?_, ?_, by decide, by decide, by simp⟩ <;>
      exact fun h => (sixbitChar_not_special _).1 h.symm
  | h2 a b =>
    simp only [b64encodeChars, List.mem_cons, not_or]
    refine ⟨?_, ?_, ?_, by decide, by simp⟩ <;>
      exact fun h => (sixbitChar_not_special _).1 h.symm
  | h3 a b c l ih =>
    simp only [b64encodeChars, List.mem_cons, not_or]
    refine ⟨?_, ?_, ?_, ?_, ih⟩ <;>
      exact fun h => (sixbitChar_not_special _).1 h.symm

/-- base64 decoding inverts encoding, for byte lists. -/
theorem b64_roundtrip : ∀ bs : List Nat, (∀ x ∈ bs, x < 256) →
    b64decodeChars (b64encodeChars bs) = bs := by
  intro bs
  induction bs using byThrees with
  | h0 => intro _; rfl
  | h1 a =>
    intro h
    have ha : a < 256 := h a (by simp)
    have e0 : charSixbit (sixbitChar (a / 4)) = a / 4 :=
      charSixbit_sixbitChar _ (by omega)
    have e1 : charSixbit (sixbitChar (a % 4 * 16)) = a % 4 * 16 :=
      charSixbit_sixbitChar _ (by omega)
    simp [b64encodeChars, b64decodeChars, e0, e1]
    omega
  | h2 a b =>
    intro h
    have ha : a < 256 := h a (by simp)
    have hb : b < 256 := h b (by simp)
    have e0 : charSixbit (sixbitChar (a / 4)) = a / 4 :=
      charSixbit_sixbitChar _ (by omega)
    have e1 : charSixbit (sixbitChar (a % 4 * 16 + b / 16)) = a % 4 * 16 + b / 16 :=
      charSixbit_sixbitChar _ (by omega)
    have e2 : charSixbit (sixbitChar (b % 16 * 4)) = b % 16 * 4 :=
      charSixbit_sixbitChar _ (by omega)
    have hne : sixbitChar (b % 16 * 4) ≠ '=' :=
      (sixbitChar_not_special_lt _ (by omega)).2.1
    simp [b64encodeChars, b64decodeChars, e0, e1, e2, hne]
    omega
  | h3 a b c l ih =>
    intro h
    have ha : a < 256 := h a (by simp)
    have hb : b < 256 := h b (by simp)
    have hc : c < 256 := h c (by simp)
    have hl : ∀ x ∈ l, x < 256 := fun x hx => h x (by simp [hx])
    have e0 : charSixbit (sixbitChar (a / 4)) = a / 4 :=
      charSixbit_sixbitChar _ (by omega)
    have e1 : charSixbit (sixbitChar (a % 4 * 16 + b / 16)) = a % 4 * 16 + b / 16 :=
      charSixbit_sixbitChar _ (by omega)
    have e2 : charSixbit (sixbitChar (b % 16 * 4 + c / 64)) = b % 16 * 4 + c / 64 :=
      charSixbit_sixbitChar _ (by omega)
    have e3 : charSixbit (sixbitChar (c % 64)) = c % 64 :=
      charSixbit_sixbitChar _ (by omega)
    have hne2 : sixbitChar (b % 16 * 4 + c / 64) ≠ '=' :=
      (sixbitChar_not_special_lt _ (by omega)).2.1
    have hne3 : sixbitChar (c % 64) ≠ '=' :=
      (sixbitChar_not_special_lt _ (by omega)).2.1
    simp [b64encodeChars, b64decodeChars, e0, e1, e2, e3, hne2, hne3, ih hl]
    omega


@[simp]
theorem stringMk_data (l : List Char) : (String.mk l).data = l := rfl

theorem stringMk_of_data : ∀ s : String, String.mk s.data = s
  | ⟨_⟩ => rfl

theorem startsWithChars_append : ∀ p rest : List Char,
    startsWithChars p (p ++ rest) = true := by
  intro p
  induction p with
  | nil => intro _; rfl
  | cons x xs ih => intro rest; simp [startsWithChars, ih]

theorem splitAllChar_pos (c : Char) (l : List Char) :
    1 ≤ (splitAllChar c l).length := by
  cases hq : splitAllChar c l with
  | nil => exact absurd hq (splitAllChar_ne_nil c l)
  | cons y ys => simp

theorem splitAllChar_length_two_le {c : Char} {l : List Char} (h : c ∈ l) :
    2 ≤ (splitAllChar c l).length := by
  induction l with
  | nil => simp at h
  | cons x xs ih =>
    rw [splitAllChar]
    by_cases hx : x = c
    · simp only [if_pos hx, List.length_cons]
      have := splitAllChar_pos c xs
      omega
    · simp only [if_neg hx]
      have hcx : c ∈ xs := by
        rcases List.mem_cons.mp h with h1 | h1
        · exact absurd h1.symm hx
        · exact h1
      have h2 := ih hcx
      cases hq : splitAllChar c xs with
      | nil => exact absurd hq (splitAllChar_ne_nil c xs)
      | cons y ys =>
        rw [hq] at h2
        simpa using h2

theorem split1Char_cases (c : Char) : ∀ l : List Char,
    (∃ a, split1Char c l = [a]) ∨ (∃ a b, split1Char c l = [a, b]) := by
  intro l
  induction l with
  | nil => exact Or.inl ⟨[], rfl⟩
  | cons x xs ih =>
    rw [split1Char]
    by_cases hx : x = c
    · exact Or.inr ⟨[], xs, by simp [hx]⟩
    · simp only [if_neg hx]
      rcases ih with ⟨a, ha⟩ | ⟨a, b, hab⟩
      · rw [ha]; exact Or.inl ⟨x :: a, rfl⟩
      · rw [hab]; exact Or.inr ⟨x :: a, b, rfl⟩

theorem standardMime_chars {m : String} (hm : m ∈ standardImageMimes) :
    ':' ∉ m.data ∧ ';' ∉ m.data ∧ ',' ∉ m.data := by
  fin_cases hm <;> decide

theorem tryBareData_ok (fs : List (String × Json)) :
    ∃ o, tryBareData (Json.obj fs) = .ok o := by
  cases hd : lookupField fs "data" with
  | none => exact ⟨none, by simp [tryBareData, pyContains, hd]⟩
  | some d =>
    exact ⟨some (.success d ((lookupField fs "mime_type").getD (Json.str "image/png"))),
      by simp [tryBareData, pyContains, pySubscript, pyGet, hd]⟩

theorem tryInlineData_ok (fs : List (String × Json))
    (h : (match lookupField fs "inline_data" with
          | some (.obj _) => true
          | some _ => false
          | none => true) = true) :
    ∃ o, tryInlineData (Json.obj fs) = .ok o := by
  cases hi : lookupField fs "inline_data" with
  | none => exact ⟨none, by simp [tryInlineData, pyContains, hi]⟩
  | some v =>
    rw [hi] at h
    cases v with
    | obj ifs =>
      exact ⟨some (.success ((lookupField ifs "data").getD (Json.str ""))
          ((lookupField ifs "mime_type").getD (Json.str "image/png"))),
        by simp [tryInlineData, pyContains, pySubscript, pyGet, hi]⟩
    | null => simp at h
    | bool b => simp at h
    | num n => simp at h
    | str s => simp at h
    | arr xs => simp at h

theorem tryImageUrl_ok (fs : List (String × Json))
    (h : (match lookupField fs "image_url" with
          | some (.obj iufs) =>
            (match lookupField iufs "url" with
             | some (.str _) => true
             | some _ => false
             | none => true)
          | some _ => false
          | none => true) = true) :
    ∃ o, tryImageUrl (Json.obj fs) = .ok o := by
  cases hiu : lookupField fs "image_url" with
  | none => exact ⟨none, by simp [tryImageUrl, pyContains, hiu]⟩
  | some v =>
    rw [hiu] at h
    cases v with
    | obj iufs =>
      have h' : (match lookupField iufs "url" with
          | some (.str _) => true
          | some _ => false
          | none => true) = true := h
      cases hurl : lookupField iufs "url" with
      | none =>
        exact ⟨none, by simp [tryImageUrl, pyContains, pySubscript, hiu, hurl]⟩
      | some u =>
        rw [hurl] at h'
        cases u with
        | str s =>
          by_cases hsw : startsWithChars "data:".data s.data = true
          · rcases split1Char_cases ',' s.data with ⟨a, ha⟩ | ⟨a, b, hab⟩
            · refine ⟨none, ?_⟩
              simp [tryImageUrl, pyContains, pySubscript, hiu, hurl,
                pyStartswith, hsw, pySplit1, ha]
            · have hcol : ':' ∈ a := colon_mem_header hsw hab
              have hlen := splitAllChar_length_two_le hcol
              obtain ⟨s0, s1, rest2, hsp⟩ : ∃ s0 s1 rest2,
                  splitAllChar ':' a = s0 :: s1 :: rest2 := by
                cases hq : splitAllChar ':' a with
                | nil => rw [hq] at hlen; simp at hlen
                | cons y ys =>
                  cases ys with
                  | nil => rw [hq] at hlen; simp at hlen
                  | cons z zs => exact ⟨y, z, zs, rfl⟩
              obtain ⟨t0, rest3, hsp2⟩ : ∃ t0 rest3,
                  splitAllChar ';' s1 = t0 :: rest3 := by
                cases hq : splitAllChar ';' s1 with
                | nil => exact absurd hq (splitAllChar_ne_nil _ _)
                | cons y ys => exact ⟨y, ys, rfl⟩
              refine ⟨some (.success (Json.str (String.mk b)) (Json.str (String.mk t0))), ?_⟩
              simp [tryImageUrl, pyContains, pySubscript, hiu, hurl,
                pyStartswith, hsw, pySplit1, hab, pyNth, pySplitStr, hsp, hsp2]
          · have hsw' : startsWithChars "data:".data s.data = false :=
              Bool.eq_false_iff.mpr hsw
            refine ⟨none, ?_⟩
            simp [tryImageUrl, pyContains, pySubscript, hiu, hurl,
              pyStartswith, hsw']
        | null => simp at h'
        | bool b => simp at h'
        | num n => simp at h'
        | arr xs => simp at h'
        | obj ofs => simp at h'
    | null => simp at h
    | bool b => simp at h
    | num n => simp at h
    | str s => simp at h
    | arr xs => simp at h

theorem tryImagesFirst_ok {img : Json} (h : shapedImg img = true) :
    ∃ o, tryImagesFirst img = .ok o := by
  cases img with
  | obj fs =>
    simp only [shapedImg, Bool.and_eq_true] at h
    obtain ⟨o1, h1⟩ := tryImageUrl_ok fs h.1
    cases o1 with
    | some r => exact ⟨some r, by simp [tryImagesFirst, h1]⟩
    | none =>
      obtain ⟨o2, h2⟩ := tryInlineData_ok fs h.2
      cases o2 with
      | some r => exact ⟨some r, by simp [tryImagesFirst, h1, h2]⟩
      | none =>
        obtain ⟨o3, h3⟩ := tryBareData_ok fs
        exact ⟨o3, by simp [tryImagesFirst, h1, h2, h3]⟩
  | null => simp [shapedImg] at h
  | bool b => simp [shapedImg] at h
  | num n => simp [shapedImg] at h
  | str s => simp [shapedImg] at h
  | arr xs => simp [shapedImg] at h

theorem scanContent_skip {item : Json} (h : skippable item = true)
    (rest : List Json) : scanContent (item :: rest) = scanContent rest := by
  cases item with
  | obj fs =>
    simp only [skippable, Bool.not_eq_true'] at h
    rw [Bool.and_eq_false_iff] at h
    rw [scanContent]
    rcases h with h | h
    · simp [pyGet, h]
    · rw [Bool.or_eq_false_iff] at h
      have h1 : lookupField fs "inline_data" = none :=
        Option.not_isSome_iff_eq_none.mp (by simp [h.1])
      have h2 : lookupField fs "data" = none :=
        Option.not_isSome_iff_eq_none.mp (by simp [h.2])
      by_cases ht : isTypeMatch ((lookupField fs "type").getD Json.null)
      · simp [pyGet, ht, tryInlineData, tryBareData, pyContains, h1, h2]
      · simp [pyGet, ht]
  | null => simp [skippable] at h
  | bool b => simp [skippable] at h
  | num n => simp [skippable] at h
  | str s => simp [skippable] at h
  | arr xs => simp [skippable] at h

theorem scanContent_yield {item : Json} {r : GenResult}
    (h : yieldsResult item = some r) (rest : List Json) :
    scanContent (item :: rest) = .ok (some r) := by
  cases item with
  | obj fs =>
    rw [yieldsResult] at h
    by_cases ht : isTypeMatch ((lookupField fs "type").getD Json.null)
    · rw [if_pos ht] at h
      cases hi : lookupField fs "inline_data" with
      | some v =>
        rw [hi] at h
        cases v with
        | obj ifs =>
          simp only [Option.some.injEq] at h
          subst h
          simp [scanContent, pyGet, ht, tryInlineData, pyContains,
            pySubscript, hi]
        | null => simp at h
        | bool b => simp at h
        | num n => simp at h
        | str s => simp at h
        | arr xs => simp at h
      | none =>
        rw [hi] at h
        cases hd : lookupField fs "data" with
        | some d =>
          rw [hd] at h
          simp only [Option.some.injEq] at h
          subst h
          simp [scanContent, pyGet, ht, tryInlineData, tryBareData,
            pyContains, pySubscript, hi, hd]
        | none => rw [hd] at h; simp at h
    · rw [if_neg ht] at h; simp at h
  | null => simp [yieldsResult] at h
  | bool b => simp [yieldsResult] at h
  | num n => simp [yieldsResult] at h
  | str s => simp [yieldsResult] at h
  | arr xs => simp [yieldsResult] at h

theorem scanContent_all_skip {pre : List Json} (h : pre.all skippable = true)
    (l : List Json) : scanContent (pre ++ l) = scanContent l := by
  induction pre with
  | nil => rfl
  | cons x xs ih =>
    simp only [List.all_cons, Bool.and_eq_true] at h
    rw [List.cons_append, scanContent_skip h.1, ih h.2]

theorem scanContent_ok : ∀ items : List Json,
    (∀ x ∈ items, shapedItem x = true) → ∃ o, scanContent items = .ok o := by
  intro items
  induction items with
  | nil => intro _; exact ⟨none, rfl⟩
  | cons item rest ih =>
    intro h
    have hitem := h item (by simp)
    have hrest : ∀ x ∈ rest, shapedItem x = true :=
      fun x hx => h x (by simp [hx])
    obtain ⟨o, ho⟩ := ih hrest
    cases item with
    | obj fs =>
      have hitem' : (match lookupField fs "inline_data" with
          | some (.obj _) => true
          | some _ => false
          | none => true) = true := hitem
      by_cases ht : isTypeMatch ((lookupField fs "type").getD Json.null)
      · obtain ⟨o2, h2⟩ := tryInlineData_ok fs hitem'
        cases o2 with
        | some r => exact ⟨some r, by simp [scanContent, pyGet, ht, h2]⟩
        | none =>
          obtain ⟨o3, h3⟩ := tryBareData_ok fs
          cases o3 with
          | some r => exact ⟨some r, by simp [scanContent, pyGet, ht, h2, h3]⟩
          | none => exact ⟨o, by simp [scanContent, pyGet, ht, h2, h3, ho]⟩
      · exact ⟨o, by simp [scanContent, pyGet, ht, ho]⟩
    | null => simp [shapedItem] at hitem
    | bool b => simp [shapedItem] at hitem
    | num n => simp [shapedItem] at hitem
    | str s => simp [shapedItem] at hitem
    | arr xs => simp [shapedItem] at hitem

theorem extractContentStage_ok (mfs : List (String × Json))
    (h : (match lookupField mfs "content" with
          | some (.arr items) => items.all shapedItem
          | some _ => true
          | none => true) = true) :
    ∃ r, extractContentStage (Json.obj mfs) = .ok r := by
  cases hc : lookupField mfs "content" with
  | none =>
    exact ⟨.failure "No image in response",
      by simp [extractContentStage, pyGet, hc]⟩
  | some v =>
    rw [hc] at h
    cases v with
    | arr items =>
      have hall : ∀ x ∈ items, shapedItem x = true := by
        simpa [List.all_eq_true] using h
      obtain ⟨o, ho⟩ := scanContent_ok items hall
      cases o with
      | some r => exact ⟨r, by simp [extractContentStage, pyGet, hc, ho]⟩
      | none =>
        exact ⟨.failure "No image in response",
          by simp [extractContentStage, pyGet, hc, ho]⟩
    | str s =>
      cases hd : s.data with
      | nil =>
        exact ⟨.failure "No image in response",
          by simp [extractContentStage, pyGet, hc, hd]⟩
      | cons c cs =>
        exact ⟨.failure ("Model returned text instead of image: " ++ take200 s),
          by simp [extractContentStage, pyGet, hc, hd]⟩
    | null =>
      exact ⟨.failure "No image in response",
        by simp [extractContentStage, pyGet, hc]⟩
    | bool b =>
      exact ⟨.failure "No image in response",
        by simp [extractContentStage, pyGet, hc]⟩
    | num n =>
      exact ⟨.failure "No image in response",
        by simp [extractContentStage, pyGet, hc]⟩
    | obj ofs =>
      exact ⟨.failure "No image in response",
        by simp [extractContentStage, pyGet, hc]⟩

/-! ### Shared extraction lemmas for the claims -/

/-- Extraction on a response whose single images-list element holds the data
URI `data:<m>;base64,<p>` returns the payload and the media type, provided
`m` contains no colon, semicolon or comma. -/
theorem extract_data_uri (m p : String) (hmc : ':' ∉ m.data) (hms : ';' ∉ m.data)
    (hmm : ',' ∉ m.data) :
    extract (urlResponse ("data:" ++ m ++ ";base64," ++ p)) =
      .ok (.success (Json.str p) (Json.str m)) := by
  have hsw : startsWithChars ['d', 'a', 't', 'a', ':']
      ('d' :: 'a' :: 't' :: 'a' :: ':' ::
        (m.data ++ ';' :: 'b' :: 'a' :: 's' :: 'e' :: '6' :: '4' :: ',' :: p.data))
      = true := by
    simp [startsWithChars]
  have hkey : split1Char ','
      (m.data ++ ';' :: 'b' :: 'a' :: 's' :: 'e' :: '6' :: '4' :: ',' :: p.data)
      = [m.data ++ [';', 'b', 'a', 's', 'e', '6', '4'], p.data] := by
    have hre : m.data ++ ';' :: 'b' :: 'a' :: 's' :: 'e' :: '6' :: '4' :: ',' :: p.data
        = (m.data ++ [';', 'b', 'a', 's', 'e', '6', '4']) ++ ',' :: p.data := by
      simp
    rw [hre]
    exact split1Char_append _ (by
      simp only [List.mem_append, not_or]
      exact ⟨hmm, by decide⟩)
  have hsplit : split1Char ','
      ('d' :: 'a' :: 't' :: 'a' :: ':' ::
        (m.data ++ ';' :: 'b' :: 'a' :: 's' :: 'e' :: '6' :: '4' :: ',' :: p.data))
      = ['d' :: 'a' :: 't' :: 'a' :: ':' :: (m.data ++ [';', 'b', 'a', 's', 'e', '6', '4']),
         p.data] := by
    simp [split1Char, hkey]
  have hss1 : splitAllChar ':'
      ('d' :: 'a' :: 't' :: 'a' :: ':' :: (m.data ++ [';', 'b', 'a', 's', 'e', '6', '4']))
      = [['d', 'a', 't', 'a'], m.data ++ [';', 'b', 'a', 's', 'e', '6', '4']] := by
    have hin : splitAllChar ':' (m.data ++ [';', 'b', 'a', 's', 'e', '6', '4'])
        = [m.data ++ [';', 'b', 'a', 's', 'e', '6', '4']] :=
      splitAllChar_of_not_mem (by
        simp only [List.mem_append, not_or]
        exact ⟨hmc, by decide⟩)
    simp [splitAllChar, hin]
  have hss2 : splitAllChar ';' (m.data ++ [';', 'b', 'a', 's', 'e', '6', '4'])
      = [m.data, ['b', 'a', 's', 'e', '6', '4']] := by
    have hre : m.data ++ [';', 'b', 'a', 's', 'e', '6', '4']
        = m.data ++ ';' :: ['b', 'a', 's', 'e', '6', '4'] := by simp
    rw [hre, splitAllChar_append _ hms,
      splitAllChar_of_not_mem (by decide)]
  simp [extract, urlResponse, pyGet, lookupField, pyIndex0, truthy, pyLen,
    tryImagesFirst, tryImageUrl, pyContains, pySubscript, pyStartswith, hsw,
    pySplit1, hsplit, pyNth, pySplitStr, hss1, hss2, stringMk_of_data,
    tryInlineData, tryBareData]

/-- The content stage on a message whose content is a non-empty plain-text
string returns the truncated model-returned-text failure. -/
theorem contentStage_text (mfs : List (String × Json)) (t : String)
    (hct : lookupField mfs "content" = some (Json.str t)) (hne : t.data ≠ []) :
    extractContentStage (Json.obj mfs) =
      .ok (.failure ("Model returned text instead of image: " ++ take200 t)) := by
  cases hd : t.data with
  | nil => exact absurd hd hne
  | cons c cs => simp [extractContentStage, pyGet, hct, hd]

/-! ### The claims -/

/-- C1, counterexample: the claim says extraction never raises for any shape
of the response tree, explicitly including an empty completions list; but on
`{"choices": []}` the source expression `data.get("choices", [{}])[0]`
raises `IndexError`. -/
theorem c1_empty_choices_raises :
    extract (Json.obj [("choices", Json.arr [])]) = .error .indexError := rfl

/-- C1 (amended): extraction terminates normally with a `Success`/`Failure`
result — never a raised exception — for every well-shaped response: a
top-level object whose `choices` field, when present, is a non-empty array
headed by an object, and whose message, images elements, `image_url`/`url`/
`inline_data` fields and content-list items, where reached, have the
structural types the code subscripts. On other shapes (an empty completions
list, a non-object first completion, a non-object first images element,
non-object content-list items) the code raises. -/
theorem c1_wellShaped_no_raise (r : Json) (h : shapedResponse r = true) :
    exceptOk (extract r) = true := by
  cases r with
  | obj fs =>
    have h' : (match lookupField fs "choices" with
        | none => true
        | some (.arr (c0 :: _)) =>
          (match c0 with
           | .obj cfs =>
             match lookupField cfs "message" with
             | some m => shapedMessage m
             | none => true
           | _ => false)
        | some _ => false) = true := h
    cases hch : lookupField fs "choices" with
    | none =>
      simp [extract, pyGet, hch, pyIndex0, truthy, lookupField,
        extractContentStage, exceptOk]
    | some v =>
      rw [hch] at h'
      cases v with
      | arr cs =>
        cases cs with
        | nil => simp at h'
        | cons c0 rest =>
          cases c0 with
          | obj cfs =>
            have h2 : (match lookupField cfs "message" with
                | some m => shapedMessage m
                | none => true) = true := h'
            cases hm : lookupField cfs "message" with
            | none =>
              simp [extract, pyGet, hch, hm, pyIndex0, truthy, lookupField,
                extractContentStage, exceptOk]
            | some msg =>
              rw [hm] at h2
              cases msg with
              | obj mfs =>
                simp only [shapedMessage, Bool.and_eq_true] at h2
                obtain ⟨him, hco⟩ := h2
                obtain ⟨rC, hrC⟩ := extractContentStage_ok mfs hco
                cases hi : lookupField mfs "images" with
                | none =>
                  simp [extract, pyGet, hch, hm, hi, pyIndex0, truthy, hrC,
                    exceptOk]
                | some iv =>
                  rw [hi] at him
                  cases iv with
                  | arr imgs =>
                    cases imgs with
                    | nil =>
                      simp [extract, pyGet, hch, hm, hi, pyIndex0, truthy,
                        hrC, exceptOk]
                    | cons img irest =>
                      have him' : shapedImg img = true := him
                      obtain ⟨o, ho⟩ := tryImagesFirst_ok him'
                      cases o with
                      | some rr =>
                        simp [extract, pyGet, hch, hm, hi, pyIndex0, truthy,
                          pyLen, ho, exceptOk]
                      | none =>
                        simp [extract, pyGet, hch, hm, hi, pyIndex0, truthy,
                          pyLen, ho, hrC, exceptOk]
                  | null =>
                    simp [extract, pyGet, hch, hm, hi, pyIndex0, truthy,
                      hrC, exceptOk]
                  | bool b =>
                    have hb : b = false := by simpa [truthy] using him
                    subst hb
                    simp [extract, pyGet, hch, hm, hi, pyIndex0, truthy,
                      hrC, exceptOk]
                  | num n =>
                    have hn : n = 0 := by simpa [truthy] using him
                    subst hn
                    simp [extract, pyGet, hch, hm, hi, pyIndex0, truthy,
                      hrC, exceptOk]
                  | str s =>
                    have hs : s.data.isEmpty = true := by
                      simpa [truthy] using him
                    simp [extract, pyGet, hch, hm, hi, pyIndex0, truthy,
                      hs, hrC, exceptOk]
                  | obj ofs =>
                    have hobj : ofs.isEmpty = true := by
                      simpa [truthy] using him
                    simp [extract, pyGet, hch, hm, hi, pyIndex0, truthy,
                      hobj, hrC, exceptOk]
              | null => simp [shapedMessage] at h2
              | bool b => simp [shapedMessage] at h2
              | num n => simp [shapedMessage] at h2
              | str s => simp [shapedMessage] at h2
              | arr xs => simp [shapedMessage] at h2
          | null => simp at h'
          | bool b => simp at h'
          | num n => simp at h'
          | str s => simp at h'
          | arr xs => simp at h'
      | null => simp at h'
      | bool b => simp at h'
      | num n => simp at h'
      | str s => simp at h'
      | obj ofs => simp at h'
  | null => simp [shapedResponse] at h
  | bool b => simp [shapedResponse] at h
  | num n => simp [shapedResponse] at h
  | str s => simp [shapedResponse] at h
  | arr xs => simp [shapedResponse] at h

/-- C1, witness: a concrete well-shaped response on which the amended
theorem applies. -/
theorem c1_wellShaped_no_raise_witness :
    shapedResponse (urlResponse "data:image/png;base64,AAAA") = true
    ∧ exceptOk (extract (urlResponse "data:image/png;base64,AAAA")) = true :=
  ⟨rfl, c1_wellShaped_no_raise (urlResponse "data:image/png;base64,AAAA") rfl⟩

/-- C2, counterexample: the claim says the outcome is determined by the
first type-matching content element and that, when it carries no data,
extraction falls through and later elements are not used; but on a content
list whose first type-matching element carries nothing and whose second
carries bare data, the code returns `Success` built from the second
element rather than the `NoImagePresent` failure. -/
theorem c2_later_element_used :
    extract twoItemContentResponse =
      .ok (.success (Json.str "QUJD") (Json.str "image/png"))
    ∧ GenResult.success (Json.str "QUJD") (Json.str "image/png")
        ≠ GenResult.failure "No image in response" :=
  ⟨rfl, fun h => GenResult.noConfusion h⟩

/-- C2 (amended): on a response whose message has no usable images entry and
whose content is a structured list, the outcome is determined by the first
element whose declared type matches AND which carries an inline-data object
or a bare data field; type-matching elements carrying neither are scanned
past (later elements ARE used), and elements after the first carrying one
are not consulted. -/
theorem c2_first_carrying_element (pre : List Json) (item : Json)
    (post : List Json) (r : GenResult)
    (hpre : pre.all skippable = true) (hitem : yieldsResult item = some r) :
    extract (contentResponse (pre ++ item :: post)) = .ok r := by
  have hscan : scanContent (pre ++ item :: post) = .ok (some r) := by
    rw [scanContent_all_skip hpre, scanContent_yield hitem]
  simp [extract, contentResponse, pyGet, lookupField, pyIndex0, truthy,
    extractContentStage, hscan]

/-- C2, witness: a skipped type-matching first element followed by a
data-carrying second element, with an arbitrary (empty) tail. -/
theorem c2_first_carrying_element_witness :
    extract (contentResponse
      ([Json.obj [("type", Json.str "image")]] ++
        Json.obj [("type", Json.str "image"), ("data", Json.str "QUJD")] :: [])) =
      .ok (.success (Json.str "QUJD") (Json.str "image/png")) :=
  c2_first_carrying_element [Json.obj [("type", Json.str "image")]]
    (Json.obj [("type", Json.str "image"), ("data", Json.str "QUJD")]) []
    (.success (Json.str "QUJD") (Json.str "image/png")) rfl rfl

/-- C3, counterexample: the claim says every `Success` carries a non-empty
media type; but a data URI whose header omits the media type
(`data:;base64,QQ==`) produces `Success` with the empty string as media
type — the header substring is used verbatim, with no PNG defaulting in
the data-URI branch. -/
theorem c3_empty_media_type :
    extract (urlResponse "data:;base64,QQ==") =
      .ok (.success (Json.str "QQ==") (Json.str ""))
    ∧ ("" : String).length = 0 := ⟨rfl, rfl⟩

/-- C3 (amended): the PNG default applies in the inline-data and bare-data
branches — when those shapes omit the media type the result is exactly
`image/png` — while in the data-URI branch the media type is the literal
header substring between the colon and the first semicolon, which can be
empty. -/
theorem c3_default_png_inline_and_bare (d : String) :
    extract (inlineDataResponse [("data", Json.str d)]) =
      .ok (.success (Json.str d) (Json.str "image/png"))
    ∧ extract (bareDataResponse d) =
      .ok (.success (Json.str d) (Json.str "image/png")) := by
  constructor <;>
    simp [extract, inlineDataResponse, bareDataResponse, pyGet, lookupField,
      pyIndex0, truthy, pyLen, tryImagesFirst, tryImageUrl, tryInlineData,
      tryBareData, pyContains, pySubscript]

/-- C4: building a response whose first images-list element holds the data
URI `data:<m>;base64,<base64 of bs>` and extracting returns `Success` with
media type `m` and a payload whose decoding by `save_image` recovers the
original bytes exactly, for every non-empty byte list and every standard
image media type. -/
theorem c4_data_uri_roundtrip (bs : List Nat) (m : String)
    (_hbs : bs ≠ []) (hlt : ∀ x ∈ bs, x < 256) (hm : m ∈ standardImageMimes) :
    extract (urlResponse ("data:" ++ m ++ ";base64," ++ b64encode bs)) =
      .ok (.success (Json.str (b64encode bs)) (Json.str m))
    ∧ save_image (b64encode bs) = bs := by
  obtain ⟨hmc, hms, hmm⟩ := standardMime_chars hm
  refine ⟨extract_data_uri m (b64encode bs) hmc hms hmm, ?_⟩
  simpa [save_image, b64decode, b64encode] using b64_roundtrip bs hlt

/-- C4, witness: the round trip at the PNG signature bytes and media type
`image/png`. -/
theorem c4_data_uri_roundtrip_witness :
    ([137, 80, 78, 71] : List Nat) ≠ []
    ∧ extract (urlResponse ("data:" ++ "image/png" ++ ";base64," ++
        b64encode [137, 80, 78, 71])) =
        .ok (.success (Json.str (b64encode [137, 80, 78, 71])) (Json.str "image/png"))
    ∧ save_image (b64encode [137, 80, 78, 71]) = [137, 80, 78, 71] :=
  ⟨by decide,
   (c4_data_uri_roundtrip [137, 80, 78, 71] "image/png" (by decide) (by decide)
     (by decide)).1,
   (c4_data_uri_roundtrip [137, 80, 78, 71] "image/png" (by decide) (by decide)
     (by decide)).2⟩

/-- C5, counterexample: the claim quantifies over every non-2xx status, but
the guard in the source is `requests`' `response.ok`, which is
`status < 400`; a 302 response with a parseable body is NOT short-circuited
into the HTTP-error failure — it proceeds to JSON parsing and extraction. -/
theorem c5_redirect_status_not_http_error :
    handleResponse 302 "redirect" (some (Json.obj [])) =
      .ok (.failure "No image in response")
    ∧ ("No image in response" : String) ≠ "HTTP 302: redirect" :=
  ⟨rfl, by decide⟩

/-- C5 (amended): for every status at or above 400, `generate_image` returns
the HTTP-error failure carrying the status and the first 200 characters of
the body, independent of whether (and how) the body would parse as JSON —
the short-circuit happens before `response.json()` and before any
extraction step. -/
theorem c5_http_error_short_circuit (status : Nat) (body : String)
    (p1 p2 : Option Json) (h : 400 ≤ status) :
    handleResponse status body p1 =
      .ok (.failure ("HTTP " ++ toString status ++ ": " ++ take200 body))
    ∧ handleResponse status body p1 = handleResponse status body p2 := by
  have hnok : responseOk status = false := by
    simp [responseOk]
    omega
  constructor <;> simp [handleResponse, hnok]

/-- C5, witness: status 401 with body `"unauthorized"` yields the
`HTTP 401: unauthorized` failure, identically for an unparsable and a
parseable body. -/
theorem c5_http_error_short_circuit_witness :
    400 ≤ 401
    ∧ handleResponse 401 "unauthorized" none =
        .ok (.failure ("HTTP " ++ toString 401 ++ ": " ++ take200 "unauthorized"))
    ∧ handleResponse 401 "unauthorized" none =
        handleResponse 401 "unauthorized" (some (Json.obj [])) :=
  ⟨by decide,
   (c5_http_error_short_circuit 401 "unauthorized" none (some (Json.obj []))
     (by decide)).1,
   (c5_http_error_short_circuit 401 "unauthorized" none (some (Json.obj []))
     (by decide)).2⟩

/-- C6: when no images-list entry yields an image (no images field, an empty
images list, or a first element on which the whole candidate chain falls
through) and the message's content is a plain non-empty text string `t`,
extraction returns the model-returned-text failure whose message carries
`t` truncated to its first 200 characters, and that truncation is at most
200 characters long. -/
theorem c6_text_truncated_to_200 (tfs cfs mfs : List (String × Json))
    (rest : List Json) (t : String)
    (hc : lookupField tfs "choices" = some (Json.arr (Json.obj cfs :: rest)))
    (hm : lookupField cfs "message" = some (Json.obj mfs))
    (himg : lookupField mfs "images" = none
      ∨ lookupField mfs "images" = some (Json.arr [])
      ∨ ∃ img irest, lookupField mfs "images" = some (Json.arr (img :: irest))
          ∧ tryImagesFirst img = Except.ok none)
    (hct : lookupField mfs "content" = some (Json.str t))
    (hne : t ≠ "") :
    extract (Json.obj tfs) =
      .ok (.failure ("Model returned text instead of image: " ++ take200 t))
    ∧ (take200 t).data.length ≤ 200 := by
  have hned : t.data ≠ [] := by
    intro hd
    apply hne
    cases t with
    | mk l =>
      simp only [stringMk_data] at hd
      subst hd
      rfl
  refine ⟨?_, by simp [take200]⟩
  have hcs := contentStage_text mfs t hct hned
  rcases himg with hi | hi | ⟨img, irest, hi, hnone⟩
  · simp [extract, pyGet, hc, hm, hi, pyIndex0, truthy, hcs]
  · simp [extract, pyGet, hc, hm, hi, pyIndex0, truthy, hcs]
  · simp [extract, pyGet, hc, hm, hi, pyIndex0, truthy, pyLen, hnone, hcs]

/-- C6, witness: the refusal text `"Sorry"` is preserved in the failure
message. -/
theorem c6_text_truncated_to_200_witness :
    extract (Json.obj [("choices", Json.arr [Json.obj [("message",
        Json.obj [("content", Json.str "Sorry")])]])]) =
      .ok (.failure ("Model returned text instead of image: " ++ take200 "Sorry"))
    ∧ (take200 "Sorry").data.length ≤ 200 :=
  c6_text_truncated_to_200 [("choices", Json.arr [Json.obj [("message",
      Json.obj [("content", Json.str "Sorry")])]])]
    [("message", Json.obj [("content", Json.str "Sorry")])]
    [("content", Json.str "Sorry")] [] "Sorry" rfl rfl (Or.inl rfl) rfl
    (by decide)

/-- C7: a response whose first completion object has no message field, and a
response whose message has an empty images list and an empty content list,
both extract to the `No image in response` failure (the empty lists fall
through the plain-text check). -/
theorem c7_no_image_present :
    (∀ (tfs cfs : List (String × Json)) (rest : List Json),
      lookupField tfs "choices" = some (Json.arr (Json.obj cfs :: rest)) →
      lookupField cfs "message" = none →
      extract (Json.obj tfs) = .ok (.failure "No image in response"))
    ∧ (∀ (tfs cfs mfs : List (String × Json)) (rest : List Json),
      lookupField tfs "choices" = some (Json.arr (Json.obj cfs :: rest)) →
      lookupField cfs "message" = some (Json.obj mfs) →
      lookupField mfs "images" = some (Json.arr []) →
      lookupField mfs "content" = some (Json.arr []) →
      extract (Json.obj tfs) = .ok (.failure "No image in response")) := by
  constructor
  · intro tfs cfs rest hc hm
    simp [extract, pyGet, hc, hm, pyIndex0, truthy, lookupField,
      extractContentStage]
  · intro tfs cfs mfs rest hc hm hi hco
    simp [extract, pyGet, hc, hm, hi, hco, pyIndex0, truthy,
      extractContentStage, scanContent]

/-- C7, witness: both families at their smallest concrete members. -/
theorem c7_no_image_present_witness :
    extract (Json.obj [("choices", Json.arr [Json.obj []])]) =
      .ok (.failure "No image in response")
    ∧ extract (Json.obj [("choices", Json.arr [Json.obj [("message",
        Json.obj [("images", Json.arr []), ("content", Json.arr [])])]])]) =
      .ok (.failure "No image in response") :=
  ⟨c7_no_image_present.1 [("choices", Json.arr [Json.obj []])] [] [] rfl rfl,
   c7_no_image_present.2 [("choices", Json.arr [Json.obj [("message",
      Json.obj [("images", Json.arr []), ("content", Json.arr [])])]])]
     [("message", Json.obj [("images", Json.arr []), ("content", Json.arr [])])]
     [("images", Json.arr []), ("content", Json.arr [])] [] rfl rfl rfl rfl⟩

/-- C8: a first images-list element whose `image_url.url` starts with the
`data:` marker but contains no comma does not raise and does not produce a
data-URI result; the candidate chain falls through and, with nothing else
in the response, extraction returns the `No image in response` failure. -/
theorem c8_malformed_data_uri_falls_through (u : String)
    (hs : startsWithChars "data:".data u.data = true) (hnc : ',' ∉ u.data) :
    extract (urlResponse u) = .ok (.failure "No image in response") := by
  simp [extract, urlResponse, pyGet, lookupField, pyIndex0, truthy, pyLen,
    tryImagesFirst, tryImageUrl, tryInlineData, tryBareData, pyContains,
    pySubscript, pyStartswith, hs, pySplit1, split1Char_of_not_mem hnc,
    extractContentStage]

/-- C8, witness: the spec's own example `"data:image/png;base64"` with the
payload missing. -/
theorem c8_malformed_data_uri_falls_through_witness :
    startsWithChars "data:".data ("data:image/png;base64" : String).data = true
    ∧ ',' ∉ ("data:image/png;base64" : String).data
    ∧ extract (urlResponse "data:image/png;base64") =
        .ok (.failure "No image in response") :=
  ⟨rfl, by decide,
   c8_malformed_data_uri_falls_through "data:image/png;base64" rfl (by decide)⟩

/-- When at least one dimension is nonzero the divisor is nonzero and the
aspect-ratio f-string is produced without raising. -/
theorem aspectRatioString_ok (w h : Int) (hnz : ¬(w = 0 ∧ h = 0)) :
    aspectRatioString w h =
      .ok (toString (Int.fdiv w (Int.gcd w h)) ++ ":" ++
           toString (Int.fdiv h (Int.gcd w h))) := by
  have hg : ((Int.gcd w h : Nat) : Int) ≠ 0 := by
    simp only [ne_eq, Int.natCast_eq_zero, Int.gcd_eq_zero_iff]
    exact hnz
  simp [aspectRatioString, pyFloorDiv, hg]

/-- C9, counterexample: the claim says the dimension fields are present iff
both dimensions are supplied and positive; but the guard in the source is
Python truthiness (`if width and height:`), so supplying `-1` and `1`
produces a payload that contains `image_size` although the width is not
positive. -/
theorem c9_negative_dimension_fields_present :
    hasFieldOk (buildPayloadPT "m" "image/jpeg" "img" "p" (some (-1)) (some 1))
      "image_size" = true
    ∧ ¬(0 < (-1 : Int)) := ⟨rfl, by decide⟩

/-- C9 (amended): `prompt_tester`'s payload contains `image_size` iff both
dimensions are supplied and nonzero (Python truthiness), `image_config` is
present exactly when `image_size` is, and that builder never raises (the
divisor computation is protected by the guard). `verify_dimensions`'
builder computes the divisor unconditionally: whenever the dimensions are
not both zero its payload contains both fields, and at width = height = 0
it raises `ZeroDivisionError` before any payload is built. For the
repository's actual call sites (the positive CARD/SCENE constants) the
both-present-and-positive invariant holds. -/
theorem c9_dimension_fields_iff_truthy (model mime b64 prompt : String)
    (w h : Option Int) (wv hv : Int) :
    ((hasFieldOk (buildPayloadPT model mime b64 prompt w h) "image_size" = true
        ↔ ∃ a b, w = some a ∧ h = some b ∧ a ≠ 0 ∧ b ≠ 0)
      ∧ hasFieldOk (buildPayloadPT model mime b64 prompt w h) "image_config"
          = hasFieldOk (buildPayloadPT model mime b64 prompt w h) "image_size"
      ∧ ∃ j, buildPayloadPT model mime b64 prompt w h = Except.ok j)
    ∧ ((wv, hv) ≠ (0, 0) →
        hasFieldOk (buildPayloadVD model mime b64 prompt wv hv) "image_size" = true
        ∧ hasFieldOk (buildPayloadVD model mime b64 prompt wv hv) "image_config" = true)
    ∧ buildPayloadVD model mime b64 prompt 0 0 = Except.error PyErr.zeroDivisionError := by
  have hPT : ∀ (a b : Int), a ≠ 0 → b ≠ 0 →
      buildPayloadPT model mime b64 prompt (some a) (some b) =
        Except.ok (Json.obj (baseFields model mime b64 prompt ++
          [("image_size", Json.obj [("width", Json.num a), ("height", Json.num b)]),
           ("image_config", Json.obj [("aspect_ratio", Json.str
              (toString (Int.fdiv a (Int.gcd a b)) ++ ":" ++
               toString (Int.fdiv b (Int.gcd a b))))])])) := by
    intro a b ha hb
    have har := aspectRatioString_ok a b (fun hc => ha hc.1)
    simp [buildPayloadPT, dimensionFields, ha, hb, har]
  refine ⟨⟨?_, ?_, ?_⟩, ?_, ?_⟩
  · cases w with
    | none =>
      simp [buildPayloadPT, baseFields, dimensionFields, hasFieldOk, hasField,
        lookupField]
    | some a =>
      cases h with
      | none =>
        simp [buildPayloadPT, baseFields, dimensionFields, hasFieldOk,
          hasField, lookupField]
      | some b =>
        by_cases ha : a = 0
        · simp [buildPayloadPT, baseFields, dimensionFields, hasFieldOk,
            hasField, lookupField, ha]
        · by_cases hb : b = 0
          · simp [buildPayloadPT, baseFields, dimensionFields, hasFieldOk,
              hasField, lookupField, ha, hb]
          · simp [hPT a b ha hb, baseFields, hasFieldOk, hasField,
              lookupField, ha, hb]
  · cases w with
    | none =>
      simp [buildPayloadPT, baseFields, dimensionFields, hasFieldOk, hasField,
        lookupField]
    | some a =>
      cases h with
      | none =>
        simp [buildPayloadPT, baseFields, dimensionFields, hasFieldOk,
          hasField, lookupField]
      | some b =>
        by_cases ha : a = 0
        · simp [buildPayloadPT, baseFields, dimensionFields, hasFieldOk,
            hasField, lookupField, ha]
        · by_cases hb : b = 0
          · simp [buildPayloadPT, baseFields, dimensionFields, hasFieldOk,
              hasField, lookupField, ha, hb]
          · simp [hPT a b ha hb, baseFields, hasFieldOk, hasField, lookupField]
  · cases w with
    | none =>
      exact ⟨Json.obj (baseFields model mime b64 prompt),
        by simp [buildPayloadPT, dimensionFields]⟩
    | some a =>
      cases h with
      | none =>
        exact ⟨Json.obj (baseFields model mime b64 prompt),
          by simp [buildPayloadPT, dimensionFields]⟩
      | some b =>
        by_cases ha : a = 0
        · exact ⟨Json.obj (baseFields model mime b64 prompt),
            by simp [buildPayloadPT, dimensionFields, ha]⟩
        · by_cases hb : b = 0
          · exact ⟨Json.obj (baseFields model mime b64 prompt),
              by simp [buildPayloadPT, dimensionFields, ha, hb]⟩
          · exact ⟨_, hPT a b ha hb⟩
  · intro hne
    have hnz : ¬(wv = 0 ∧ hv = 0) := by
      intro hc
      exact hne (by simp [hc.1, hc.2])
    have har := aspectRatioString_ok wv hv hnz
    constructor <;>
      simp [buildPayloadVD, baseFields, hasFieldOk, hasField, lookupField, har]
  · simp [buildPayloadVD, aspectRatioString, pyFloorDiv]

/-- C9, witness: the CARD dimensions 1728 x 2304 are not both zero, and
`verify_dimensions`' payload for them carries both fields. -/
theorem c9_dimension_fields_iff_truthy_witness :
    ((1728, 2304) : Int × Int) ≠ (0, 0)
    ∧ hasFieldOk (buildPayloadVD "m" "image/jpeg" "img" "p" 1728 2304)
        "image_size" = true
    ∧ hasFieldOk (buildPayloadVD "m" "image/jpeg" "img" "p" 1728 2304)
        "image_config" = true :=
  ⟨by decide,
   ((c9_dimension_fields_iff_truthy "m" "image/jpeg" "img" "p" (some 1728)
      (some 2304) 1728 2304).2.1 (by decide)).1,
   ((c9_dimension_fields_iff_truthy "m" "image/jpeg" "img" "p" (some 1728)
      (some 2304) 1728 2304).2.1 (by decide)).2⟩

/-- C10: an images-list element (or a type-matching content-list element)
whose `inline_data` object lacks a `data` field extracts to `Success` with
the empty base64 string as payload — a `Success` result does not guarantee
non-empty image bytes. -/
theorem c10_missing_data_empty_success (ifs : List (String × Json))
    (hd : lookupField ifs "data" = none) :
    extract (inlineDataResponse ifs) =
      .ok (.success (Json.str "")
        ((lookupField ifs "mime_type").getD (Json.str "image/png")))
    ∧ extract (contentInlineResponse ifs) =
      .ok (.success (Json.str "")
        ((lookupField ifs "mime_type").getD (Json.str "image/png"))) := by
  constructor
  · simp [extract, inlineDataResponse, pyGet, lookupField, pyIndex0, truthy,
      pyLen, tryImagesFirst, tryImageUrl, tryInlineData, pyContains,
      pySubscript, hd]
  · simp [extract, contentInlineResponse, contentResponse, pyGet, lookupField,
      pyIndex0, truthy, extractContentStage, scanContent, isTypeMatch,
      jsonEqStr, tryInlineData, pyContains, pySubscript, hd]

/-- C10, witness: the empty inline-data object. -/
theorem c10_missing_data_empty_success_witness :
    lookupField [] "data" = none
    ∧ extract (inlineDataResponse []) =
        .ok (.success (Json.str "")
          ((lookupField [] "mime_type").getD (Json.str "image/png")))
    ∧ extract (contentInlineResponse []) =
        .ok (.success (Json.str "")
          ((lookupField [] "mime_type").getD (Json.str "image/png"))) :=
  ⟨rfl, (c10_missing_data_empty_success [] rfl).1,
   (c10_missing_data_empty_success [] rfl).2⟩
